import Mathlib

/-!
Verification of the OctoBase collaborative-workspace core
(`libs/jwst/src/workspaces/workspace.rs`, `libs/jwst/src/workspace/plugins.rs`).

Shallow embedding: the yrs CRDT maps `blocks` and `updated` are modelled as
association lists in insertion order; block-level operations (`Block::new`,
`Block::set`, `remove`) live outside the provided sources and are modelled
from the spec where noted.
-/

set_option autoImplicit false

namespace OctoBase

/-- Kind tag of an edit record in a block's `updated` log (spec §4.1). -/
inductive EditKind where
  | create
  | update
  | delete
deriving DecidableEq

/-- One entry of a block's append-only `updated` log (spec §4.1). -/
structure EditRecord where
  clientId : Nat
  timestamp : Nat
  kind : EditKind
deriving DecidableEq

/-- The CRDT sub-map backing one block: its immutable `flavor` plus
arbitrary user attributes. -/
structure BlockData where
  flavor : String
  props : List (String × String)
deriving DecidableEq

/-- Content of the two top-level CRDT maps of a `Workspace`
(`workspace.rs` lines 25-38): `blocks` keyed by block id, and the parallel
`updated` map keyed by block id.  yrs map iteration is modelled as the
association-list order. -/
structure WorkspaceContent where
  blocks : List (String × BlockData)
  updated : List (String × List EditRecord)
deriving DecidableEq

/-- The empty workspace content (`Workspace::new` on a fresh `Doc`). -/
def WorkspaceContent.empty : WorkspaceContent :=
  { blocks := [], updated := [] }

/-- Replace the value stored under `key`, or append a fresh entry. -/
def setAttr (props : List (String × String)) (key value : String) :
    List (String × String) :=
  if key ∈ props.map Prod.fst then
    props.map (fun q => if q.1 = key then (q.1, value) else q)
  else
    props ++ [(key, value)]

/-- Modelled from the spec: `Block::create` (spec §4.1; `block.rs` is not
among the provided sources).  Creation fails (leaves the state unchanged)
when `blocks[id]` is already set; otherwise it creates the sub-map, writes
`flavor`, initializes `updated[id]` and appends one creation record —
both maps are written in the same transaction. -/
def createBlock (s : WorkspaceContent) (id flavor : String)
    (clientId ts : Nat) : WorkspaceContent :=
  if id ∈ s.blocks.map Prod.fst then s
  else
    { blocks := s.blocks ++ [(id, { flavor := flavor, props := [] })],
      updated := s.updated ++ [(id, [⟨clientId, ts, EditKind.create⟩])] }

/-- Modelled from the spec: `Block::set` (spec §4.1; `block.rs` is not among
the provided sources).  Writes an attribute of an existing block, rejecting
the reserved key `flavor`, and appends one `update` record to the block's
log.  The key sets of both maps are untouched. -/
def setProp (s : WorkspaceContent) (id key value : String)
    (clientId ts : Nat) : WorkspaceContent :=
  if key = "flavor" then s
  else if id ∈ s.blocks.map Prod.fst then
    { blocks := s.blocks.map (fun p =>
        if p.1 = id then (p.1, { p.2 with props := setAttr p.2.props key value }) else p),
      updated := s.updated.map (fun p =>
        if p.1 = id then (p.1, p.2 ++ [⟨clientId, ts, EditKind.update⟩]) else p) }
  else s

/-- Modelled from the spec: `Block::remove` / `WorkspaceTransaction::remove`
(spec §4.1; exercised by `test::workspace`): removes both `blocks[id]` and
`updated[id]` within the same transaction. -/
def removeBlock (s : WorkspaceContent) (id : String) : WorkspaceContent :=
  { blocks := s.blocks.filter (fun p => p.1 != id),
    updated := s.updated.filter (fun p => p.1 != id) }

/-- Workspace states reachable through the block-level write operations,
starting from a fresh document. -/
inductive Reachable : WorkspaceContent → Prop where
  | empty : Reachable WorkspaceContent.empty
  | create {s : WorkspaceContent} (id flavor : String) (clientId ts : Nat) :
      Reachable s → Reachable (createBlock s id flavor clientId ts)
  | set {s : WorkspaceContent} (id key value : String) (clientId ts : Nat) :
      Reachable s → Reachable (setProp s id key value clientId ts)
  | remove {s : WorkspaceContent} (id : String) :
      Reachable s → Reachable (removeBlock s id)

/-- The two top-level maps agree on their key sequences. -/
def keysAligned (s : WorkspaceContent) : Prop :=
  s.blocks.map Prod.fst = s.updated.map Prod.fst

theorem map_fst_mapValues {β : Type} (l : List (String × β)) (id : String)
    (f : String × β → β) :
    (l.map (fun p => if p.1 = id then (p.1, f p) else p)).map Prod.fst =
      l.map Prod.fst := by
  induction l with
  | nil => rfl
  | cons hd tl ih =>
    by_cases h : hd.1 = id <;> simp [h, ih]

theorem map_fst_filterKey {β : Type} (l : List (String × β)) (id : String) :
    (l.filter (fun p => p.1 != id)).map Prod.fst =
      (l.map Prod.fst).filter (fun k => k != id) := by
  induction l with
  | nil => rfl
  | cons hd tl ih =>
    by_cases h : hd.1 = id <;> simp [List.filter_cons, h, ih]

theorem reachable_keysAligned {s : WorkspaceContent} (h : Reachable s) :
    keysAligned s := by
  induction h with
  | empty => rfl
  | create id flavor clientId ts _ ih =>
    have ih' : _ = _ := ih
    unfold keysAligned createBlock
    split
    · exact ih
    · simp only [List.map_append, List.map_cons, List.map_nil]
      rw [ih']
  | set id key value clientId ts _ ih =>
    have ih' : _ = _ := ih
    unfold keysAligned setProp
    split
    · exact ih
    · split
      · rw [map_fst_mapValues, map_fst_mapValues]
        exact ih'
      · exact ih
  | remove id _ ih =>
    have ih' : _ = _ := ih
    unfold keysAligned removeBlock
    rw [map_fst_filterKey, map_fst_filterKey, ih']

/-- C1: for every reachable workspace state and every block id `b`, the
top-level map `blocks` contains `b` iff the top-level map `updated`
contains `b`; creation inserts into both maps and removal removes from
both within the same write transaction, so no operation leaves a key in
one map without the other. -/
theorem blocks_updated_key_parity {s : WorkspaceContent} (h : Reachable s)
    (b : String) :
    b ∈ s.blocks.map Prod.fst ↔ b ∈ s.updated.map Prod.fst := by
  have h' : s.blocks.map Prod.fst = s.updated.map Prod.fst :=
    reachable_keysAligned h
  rw [h']

/-- C1 witness: the parity holds concretely after creating block "b" in a
fresh workspace. -/
theorem blocks_updated_key_parity_witness :
    "b" ∈ (createBlock WorkspaceContent.empty "b" "text" 1 0).blocks.map Prod.fst ↔
      "b" ∈ (createBlock WorkspaceContent.empty "b" "text" 1 0).updated.map Prod.fst :=
  blocks_updated_key_parity (Reachable.create "b" "text" 1 0 Reachable.empty) "b"

/-- A block as yielded by `Workspace::blocks`: the id and backing map taken
from the `blocks` entry, the log array taken from the zipped `updated`
entry (`Block::from_raw_parts`). -/
structure BlockView where
  id : String
  content : BlockData
  updatedLog : List EditRecord
deriving DecidableEq

/-- Translation of `Workspace::blocks` (`workspace.rs` lines 166-186): the
iterator zips `self.blocks.iter(trx)` with `self.updated.iter(trx)`
positionally, keeps the id and map of the `blocks` entry and the array of
the `updated` entry, discarding the `updated` entry's own key. -/
def blocksIter (s : WorkspaceContent) : List BlockView :=
  (s.blocks.zip s.updated).map (fun p => ⟨p.1.1, p.1.2, p.2.2⟩)

/-- Translation of `Workspace::get_blocks_by_flavour` (`workspace.rs` lines
188-197): filter the zipped block iterator by `block.flavor(trx) == flavour`. -/
def get_blocks_by_flavour (s : WorkspaceContent) (flavour : String) :
    List BlockView :=
  (blocksIter s).filter (fun b => b.content.flavor == flavour)

theorem blocksIter_ids_take (bs : List (String × BlockData))
    (us : List (String × List EditRecord)) :
    ((bs.zip us).map (fun p => p.1.1)) = (bs.map Prod.fst).take us.length := by
  induction bs generalizing us with
  | nil => simp
  | cons hd tl ih =>
    cases us with
    | nil => simp
    | cons uhd utl => simp [ih]

theorem blocksIter_zip_aligned (bs : List (String × BlockData))
    (us : List (String × List EditRecord))
    (h : bs.map Prod.fst = us.map Prod.fst) :
    ((bs.zip us).map (fun p => (p.1.1, p.1.2))) = bs ∧
      ((bs.zip us).map (fun p => (p.1.1, p.2.2))) = us := by
  induction bs generalizing us with
  | nil =>
    cases us with
    | nil => simp
    | cons uhd utl => simp at h
  | cons hd tl ih =>
    cases us with
    | nil => simp at h
    | cons uhd utl =>
      simp only [List.map_cons, List.cons.injEq] at h
      obtain ⟨hk, ht⟩ := h
      obtain ⟨h1, h2⟩ := ih utl ht
      constructor
      · simp [h1]
      · simp [h2, hk]

theorem map_filter_comm {α β : Type} (f : α → β) (q : β → Bool) (l : List α) :
    (l.filter (fun a => q (f a))).map f = (l.map f).filter q := by
  induction l with
  | nil => rfl
  | cons hd tl ih => by_cases h : q (f hd) <;> simp [List.filter_cons, h, ih]

/-- A workspace state in which the two maps disagree: block "a" exists only
in `blocks`, block "b" exists in both (`updated` lost "a"'s entry). -/
def wsMismatch : WorkspaceContent :=
  { blocks := [("a", { flavor := "text", props := [] }),
               ("b", { flavor := "text", props := [] })],
    updated := [("b", [])] }

/-- C4 counterexample: the zipped iterator is positional, not key-matched.
In `wsMismatch`, id "b" is present in both maps yet never yielded, while
id "a" is present only in `blocks` yet is yielded (paired with "b"'s
updated data) instead of being skipped. -/
theorem blocks_iter_counterexample :
    ("b" ∈ wsMismatch.blocks.map Prod.fst ∧
      "b" ∈ wsMismatch.updated.map Prod.fst) ∧
    "b" ∉ (blocksIter wsMismatch).map BlockView.id ∧
    ("a" ∉ wsMismatch.updated.map Prod.fst ∧
      "a" ∈ (blocksIter wsMismatch).map BlockView.id) := by decide

/-- C4 (amended): iteration pairs the two maps positionally.  It yields each
block id at most once; when the two maps agree on their key sequence it
yields every id exactly once, paired with its own block data and its own
updated log.  When the maps disagree, entries are truncated to the shorter
map and ids may be paired with another key's updated data; orphans are not
reliably skipped. -/
theorem blocks_iter_amended (s : WorkspaceContent)
    (hnd : (s.blocks.map Prod.fst).Nodup) :
    ((blocksIter s).map BlockView.id).Nodup ∧
    (s.blocks.map Prod.fst = s.updated.map Prod.fst →
      (blocksIter s).map (fun b => (b.id, b.content)) = s.blocks ∧
      (blocksIter s).map (fun b => (b.id, b.updatedLog)) = s.updated) := by
  constructor
  · have h1 : (blocksIter s).map BlockView.id =
        (s.blocks.map Prod.fst).take s.updated.length := by
      simpa [blocksIter, List.map_map, Function.comp] using
        blocksIter_ids_take s.blocks s.updated
    rw [h1]
    exact hnd.sublist (List.take_sublist _ _)
  · intro h
    have hz := blocksIter_zip_aligned s.blocks s.updated h
    constructor
    · simpa [blocksIter, List.map_map, Function.comp] using hz.1
    · simpa [blocksIter, List.map_map, Function.comp] using hz.2

/-- Three-block demonstration workspace with flavors "text", "image",
"text", created in that order. -/
def wsDemo : WorkspaceContent :=
  createBlock
    (createBlock (createBlock WorkspaceContent.empty "b1" "text" 7 0)
      "b2" "image" 7 1)
    "b3" "text" 7 2

theorem wsDemo_reachable : Reachable wsDemo :=
  Reachable.create "b3" "text" 7 2
    (Reachable.create "b2" "image" 7 1
      (Reachable.create "b1" "text" 7 0 Reachable.empty))

/-- C4 witness: the amended iteration property, instantiated on the
three-block demonstration workspace. -/
theorem blocks_iter_amended_witness :
    ((blocksIter wsDemo).map BlockView.id).Nodup ∧
    (wsDemo.blocks.map Prod.fst = wsDemo.updated.map Prod.fst →
      (blocksIter wsDemo).map (fun b => (b.id, b.content)) = wsDemo.blocks ∧
      (blocksIter wsDemo).map (fun b => (b.id, b.updatedLog)) = wsDemo.updated) :=
  blocks_iter_amended wsDemo (by decide)

/-- C8: on every reachable workspace state, `get_blocks_by_flavour`
returns exactly the blocks whose `flavor` attribute equals the given
string, in the order of the `blocks` map — which appends at creation, i.e.
creation order. -/
theorem get_blocks_by_flavour_spec {s : WorkspaceContent} (h : Reachable s)
    (flavour : String) :
    (get_blocks_by_flavour s flavour).map (fun b => (b.id, b.content)) =
      s.blocks.filter (fun p => p.2.flavor == flavour) := by
  have hal := reachable_keysAligned h
  have hz : (blocksIter s).map (fun b => (b.id, b.content)) = s.blocks := by
    simpa [blocksIter, List.map_map, Function.comp] using
      (blocksIter_zip_aligned s.blocks s.updated hal).1
  calc (get_blocks_by_flavour s flavour).map (fun b => (b.id, b.content))
      = ((blocksIter s).map (fun b => (b.id, b.content))).filter
          (fun p => p.2.flavor == flavour) :=
        map_filter_comm (fun b => (b.id, b.content))
          (fun p => p.2.flavor == flavour) (blocksIter s)
    _ = s.blocks.filter (fun p => p.2.flavor == flavour) := by rw [hz]

/-- C8 witness: on the three-block workspace with flavors
["text", "image", "text"], querying "text" returns exactly the first and
third block, in creation order. -/
theorem get_blocks_by_flavour_witness :
    ((get_blocks_by_flavour wsDemo "text").map (fun b => (b.id, b.content)) =
      wsDemo.blocks.filter (fun p => p.2.flavor == "text")) ∧
    (get_blocks_by_flavour wsDemo "text").map BlockView.id = ["b1", "b3"] :=
  ⟨get_blocks_by_flavour_spec wsDemo_reachable "text", by decide⟩

/-- An abstract CRDT item of the document, identifying one inserted piece
of content: a key write in the `blocks` map, an appended record in the
`updated` map, or a `space:meta` write.  yrs updates are add-only sets of
such items; applying an update unions them into the document. -/
inductive DocOp where
  | blockEntry (id : String) (key : String) (value : String)
  | updatedEntry (id : String) (record : Nat)
  | metaEntry (key : String) (value : String)
deriving DecidableEq

/-- Shared document-plus-awareness state driven by the sync engine
(`Workspace.awareness: Arc<RwLock<Awareness>>` holding the `Doc`). -/
structure SyncDocState where
  doc : Finset DocOp
  awareness : Finset (Nat × Nat)
deriving DecidableEq

/-- The y-sync `SyncMessage` frames.  State vectors and decoded updates are
both modelled as the item sets they denote; the claims range over
well-formed frames, so `decode_v1` is the identity here. -/
inductive SyncMessage where
  | syncStep1 (sv : Finset DocOp)
  | syncStep2 (update : Finset DocOp)
  | update (update : Finset DocOp)
deriving DecidableEq

/-- The y-sync `Message` frames handled by `sync_handle_message`. -/
inductive Message where
  | sync (msg : SyncMessage)
  | auth (reason : Option String)
  | awarenessQuery
  | awareness (update : Finset (Nat × Nat))
  | custom (tag : Nat) (data : List Nat)
deriving DecidableEq

/-- Modelled from the spec: yrs `encode_state_as_update_v1(sv)` encodes
every item the peer summarized by `sv` is missing (yrs is a dependency;
spec §4.6 rule 2). -/
def encode_state_as_update (st : SyncDocState) (sv : Finset DocOp) :
    Finset DocOp :=
  st.doc \ sv

/-- Modelled from the spec: yrs `TransactionMut::apply_update` merges the
decoded update into the document (add-only item union). -/
def apply_update (doc : Finset DocOp) (u : Finset DocOp) : Finset DocOp :=
  doc ∪ u

/-- Modelled from the spec: y-sync `DefaultProtocol::handle_sync_step1`
replies with `Step2(local_update_since(sv))`, no state change (spec §4.6
rule 2). -/
def handle_sync_step1 (st : SyncDocState) (sv : Finset DocOp) :
    Except String (Option Message × SyncDocState) :=
  Except.ok (some (Message.sync (SyncMessage.syncStep2 (encode_state_as_update st sv))), st)

/-- Modelled from the spec: y-sync `DefaultProtocol::handle_sync_step2`
applies the update under a write transaction, no reply (spec §4.6 rule 3). -/
def handle_sync_step2 (st : SyncDocState) (u : Finset DocOp) :
    Except String (Option Message × SyncDocState) :=
  Except.ok (none, { st with doc := apply_update st.doc u })

/-- Modelled from the spec: y-sync `DefaultProtocol::handle_auth` default. -/
def handle_auth (st : SyncDocState) (_reason : Option String) :
    Except String (Option Message × SyncDocState) :=
  Except.ok (none, st)

/-- Modelled from the spec: y-sync `DefaultProtocol::handle_awareness_query`
replies with the current awareness state. -/
def handle_awareness_query (st : SyncDocState) :
    Except String (Option Message × SyncDocState) :=
  Except.ok (some (Message.awareness st.awareness), st)

/-- Modelled from the spec: y-sync `DefaultProtocol::handle_awareness_update`
merges the awareness delta, no reply. -/
def handle_awareness_update (st : SyncDocState) (u : Finset (Nat × Nat)) :
    Except String (Option Message × SyncDocState) :=
  Except.ok (none, { st with awareness := st.awareness ∪ u })

/-- Modelled from the spec: y-sync `DefaultProtocol::missing_handle` rejects
custom frames when no hook is installed. -/
def missing_handle (_st : SyncDocState) (_tag : Nat) (_data : List Nat) :
    Except String (Option Message × SyncDocState) :=
  Except.error "unsupported message type"

/-- Translation of `Workspace::sync_handle_message` (`workspace.rs` lines
261-295).  The `Update` arm is the in-repo code: it applies the decoded
update in a write transaction, commits, re-encodes the transaction's own
update (`txn.encode_update_v1()`, i.e. exactly the items new to the
document) and unconditionally returns it as an outgoing `Update` message.
The other arms delegate to the y-sync protocol. -/
def sync_handle_message (st : SyncDocState) (msg : Message) :
    Except String (Option Message × SyncDocState) :=
  match msg with
  | Message.sync m =>
    match m with
    | SyncMessage.syncStep1 sv => handle_sync_step1 st sv
    | SyncMessage.syncStep2 u => handle_sync_step2 st u
    | SyncMessage.update u =>
      Except.ok (some (Message.sync (SyncMessage.update (u \ st.doc))),
        { st with doc := apply_update st.doc u })
  | Message.auth reason => handle_auth st reason
  | Message.awarenessQuery => handle_awareness_query st
  | Message.awareness u => handle_awareness_update st u
  | Message.custom tag data => missing_handle st tag data

/-- A workspace state holding one block item, used to exhibit a duplicate
update frame. -/
def dupState : SyncDocState :=
  { doc := {DocOp.blockEntry "b" "sys:flavor" "text"}, awareness := ∅ }

/-- C2 counterexample: delivering an Update frame that duplicates the
document's existing content changes nothing, yet the handler still
produces an outgoing Update message (carrying the empty re-encoded
update) instead of no output. -/
theorem sync_handle_update_dup_counterexample :
    sync_handle_message dupState
        (Message.sync (SyncMessage.update {DocOp.blockEntry "b" "sys:flavor" "text"})) =
      Except.ok (some (Message.sync (SyncMessage.update (∅ : Finset DocOp))), dupState) := by
  simp [sync_handle_message, dupState, apply_update]

/-- C2 (amended): every well-formed Update frame is applied to the document
under a write transaction and the handler returns the re-encoded update of
that transaction (the items new to the document) as an outgoing Update
message — including duplicate/no-op frames, which leave the document
unchanged but still produce an output message carrying the empty
re-encoded update. -/
theorem sync_handle_update_spec (st : SyncDocState) (u : Finset DocOp) :
    sync_handle_message st (Message.sync (SyncMessage.update u)) =
      Except.ok (some (Message.sync (SyncMessage.update (u \ st.doc))),
        { st with doc := st.doc ∪ u }) ∧
    (u ⊆ st.doc →
      u \ st.doc = ∅ ∧ { st with doc := st.doc ∪ u } = st) := by
  refine ⟨rfl, fun hsub => ⟨?_, ?_⟩⟩
  · exact Finset.sdiff_eq_empty_iff_subset.mpr hsub
  · have : st.doc ∪ u = st.doc := Finset.union_eq_left.mpr hsub
    simp [this]

/-- C2 witness: the amended behaviour at a concrete duplicate frame. -/
theorem sync_handle_update_spec_witness :
    (sync_handle_message dupState
        (Message.sync (SyncMessage.update {DocOp.blockEntry "b" "sys:flavor" "text"})) =
      Except.ok (some (Message.sync (SyncMessage.update
          (({DocOp.blockEntry "b" "sys:flavor" "text"} : Finset DocOp) \ dupState.doc))),
        { dupState with doc := dupState.doc ∪ {DocOp.blockEntry "b" "sys:flavor" "text"} })) ∧
    (({DocOp.blockEntry "b" "sys:flavor" "text"} : Finset DocOp) \ dupState.doc = ∅ ∧
      { dupState with doc := dupState.doc ∪ {DocOp.blockEntry "b" "sys:flavor" "text"} } = dupState) :=
  ⟨(sync_handle_update_spec dupState _).1,
    (sync_handle_update_spec dupState _).2 (by decide)⟩

/-- Translation of `Workspace::sync_migration` (`workspace.rs` lines
249-253): encode the full document state against the default (empty) state
vector. -/
def sync_migration (st : SyncDocState) : Finset DocOp :=
  encode_state_as_update st ∅

/-- Classifier of block items. -/
def DocOp.isBlockEntry : DocOp → Bool
  | DocOp.blockEntry _ _ _ => true
  | _ => false

/-- Classifier of updated-log items. -/
def DocOp.isUpdatedEntry : DocOp → Bool
  | DocOp.updatedEntry _ _ => true
  | _ => false

/-- JSON projection of the top-level `blocks` map: the block items of the
document. -/
def blocksProj (doc : Finset DocOp) : Finset DocOp :=
  doc.filter (fun op => op.isBlockEntry = true)

/-- JSON projection of the top-level `updated` map: the updated-log items
of the document. -/
def updatedProj (doc : Finset DocOp) : Finset DocOp :=
  doc.filter (fun op => op.isUpdatedEntry = true)

/-- C3: decoding the byte string produced by `sync_migration` into a fresh
document (`Doc::default()` then `apply_update`, as in `test::doc_load_test`)
yields a document whose `blocks` and `updated` JSON projections equal those
of the original workspace. -/
theorem sync_migration_roundtrip (st : SyncDocState) :
    blocksProj (apply_update ∅ (sync_migration st)) = blocksProj st.doc ∧
    updatedProj (apply_update ∅ (sync_migration st)) = updatedProj st.doc := by
  constructor <;>
    simp [sync_migration, encode_state_as_update, apply_update]

/-- The per-handle plugin registry (`workspace/plugins.rs` lines 28-34): a
`type_map::TypeMap` keyed by the plugin's compile-time type tag, modelled
as an association list from type tag to plugin instance. -/
structure WorkspacePluginMap where
  map : List (Nat × Nat)
deriving DecidableEq

/-- Modelled from the spec of the `type_map` dependency:
`TypeMap::insert` stores the value under its type's tag, replacing any
value already stored under that tag. -/
def typeMapInsert (m : List (Nat × Nat)) (tag v : Nat) : List (Nat × Nat) :=
  if tag ∈ m.map Prod.fst then
    m.map (fun p => if p.1 = tag then (tag, v) else p)
  else m ++ [(tag, v)]

/-- Translation of `WorkspacePluginMap::insert_plugin` (`plugins.rs` lines
37-43): insert into the TypeMap and return `Ok` unconditionally. -/
def insert_plugin (pm : WorkspacePluginMap) (tag v : Nat) :
    Except String WorkspacePluginMap :=
  Except.ok { map := typeMapInsert pm.map tag v }

/-- Translation of `WorkspacePluginMap::get_plugin` (`plugins.rs` lines
45-47). -/
def get_plugin (pm : WorkspacePluginMap) (tag : Nat) : Option Nat :=
  (pm.map.find? (fun p => p.1 == tag)).map Prod.snd

theorem replace_keys (m : List (Nat × Nat)) (tag v : Nat) :
    (m.map (fun p => if p.1 = tag then (tag, v) else p)).map Prod.fst =
      m.map Prod.fst := by
  induction m with
  | nil => rfl
  | cons hd tl ih => by_cases hk : hd.1 = tag <;> simp [hk, ih]

theorem find?_replace {m : List (Nat × Nat)} {tag v : Nat}
    (h : tag ∈ m.map Prod.fst) :
    (m.map (fun p => if p.1 = tag then (tag, v) else p)).find?
        (fun p => p.1 == tag) = some (tag, v) := by
  induction m with
  | nil => simp at h
  | cons hd tl ih =>
    by_cases hk : hd.1 = tag
    · simp [hk]
    · have h' : tag ∈ tl.map Prod.fst := by
        rw [List.map_cons, List.mem_cons] at h
        rcases h with h0 | h0
        · exact absurd h0.symm hk
        · exact h0
      simpa [hk] using ih h'

theorem find?_append_missing {m : List (Nat × Nat)} {tag v : Nat}
    (h : tag ∉ m.map Prod.fst) :
    (m ++ [(tag, v)]).find? (fun p => p.1 == tag) = some (tag, v) := by
  induction m with
  | nil => simp
  | cons hd tl ih =>
    simp only [List.map_cons, List.mem_cons, not_or] at h
    obtain ⟨h1, h2⟩ := h
    have hk : hd.1 ≠ tag := fun he => h1 he.symm
    simpa [hk] using ih h2

/-- C6 (amended): the plugin map holds at most one instance per type tag
(key uniqueness is preserved), but `insert_plugin` on an occupied tag does
not fail with AlreadyInstalled: it always returns `Ok`, replacing the
previously installed instance with the new one. -/
theorem insert_plugin_amended (pm : WorkspacePluginMap) (tag v : Nat)
    (hnd : (pm.map.map Prod.fst).Nodup) :
    insert_plugin pm tag v = Except.ok { map := typeMapInsert pm.map tag v } ∧
    ((typeMapInsert pm.map tag v).map Prod.fst).Nodup ∧
    get_plugin { map := typeMapInsert pm.map tag v } tag = some v := by
  refine ⟨rfl, ?_, ?_⟩
  · unfold typeMapInsert
    split
    · rw [replace_keys]; exact hnd
    · rename_i hmem
      simp only [List.map_append, List.map_cons, List.map_nil]
      refine List.Nodup.append hnd (List.nodup_singleton tag) ?_
      intro a ha hb
      rw [List.mem_singleton] at hb
      exact hmem (hb ▸ ha)
  · unfold get_plugin typeMapInsert
    by_cases hmem : tag ∈ pm.map.map Prod.fst
    · simp only [hmem, if_true]
      rw [find?_replace hmem]
      rfl
    · simp only [hmem, if_false]
      rw [find?_append_missing hmem]
      rfl

/-- C6 witness: the amended property at a concretely occupied tag. -/
theorem insert_plugin_amended_witness :
    insert_plugin ⟨[(0, 1)]⟩ 0 2 = Except.ok { map := typeMapInsert [(0, 1)] 0 2 } ∧
    ((typeMapInsert [(0, 1)] 0 2).map Prod.fst).Nodup ∧
    get_plugin { map := typeMapInsert [(0, 1)] 0 2 } 0 = some 2 :=
  insert_plugin_amended ⟨[(0, 1)]⟩ 0 2 (by decide)

/-- C6 counterexample: installing into a tag that is already occupied
succeeds (no AlreadyInstalled error) and the previously installed
instance is overwritten, not left in place. -/
theorem insert_plugin_counterexample :
    insert_plugin ⟨[(0, 1)]⟩ 0 2 = Except.ok ⟨[(0, 2)]⟩ ∧
    get_plugin ⟨[(0, 2)]⟩ 0 = some 2 ∧
    get_plugin ⟨[(0, 2)]⟩ 0 ≠ some 1 := by
  refine ⟨rfl, rfl, by decide⟩

/-- Modelled from the spec: `setup_plugin` (in `workspaces/plugins.rs`, not
among the provided sources) populates a fresh plugin map with the default
indexing plugin (tag 0). -/
def setupPluginMap : WorkspacePluginMap :=
  ⟨[(0, 0)]⟩

/-- Heap of shared state: documents held behind `Arc<RwLock<Awareness>>`
and the per-handle plugin maps.  Multiple Workspace handles may point at
the same document cell. -/
structure SharedHeap where
  docs : List WorkspaceContent
  pluginMaps : List WorkspacePluginMap
deriving DecidableEq

/-- A Workspace handle: its id plus references into the shared heap for
the document/awareness pair and for its own plugin map. -/
structure WorkspaceHandle where
  id : String
  docRef : Nat
  pluginsRef : Nat
deriving DecidableEq

/-- Translation of `Clone for Workspace` via `Workspace::from_raw`
(`workspace.rs` lines 64-79 and 321-331): the clone receives the same
document/awareness reference (the `Arc`s are cloned, not their contents)
and a freshly allocated plugin map populated by `setup_plugin`. -/
def cloneWorkspace (h : SharedHeap) (w : WorkspaceHandle) :
    SharedHeap × WorkspaceHandle :=
  ({ h with pluginMaps := h.pluginMaps ++ [setupPluginMap] },
   { id := w.id, docRef := w.docRef, pluginsRef := h.pluginMaps.length })

/-- Translation of `Workspace::with_trx` (`workspace.rs` lines 117-125):
run `f` inside a write transaction on the shared document and commit the
mutated content back to the shared cell. -/
def with_trx (h : SharedHeap) (w : WorkspaceHandle)
    (f : WorkspaceContent → WorkspaceContent) : SharedHeap :=
  { h with docs := h.docs.set w.docRef (f (h.docs.getD w.docRef WorkspaceContent.empty)) }

/-- Open a read transaction through a handle and observe the shared
document. -/
def readDoc (h : SharedHeap) (w : WorkspaceHandle) : WorkspaceContent :=
  h.docs.getD w.docRef WorkspaceContent.empty

theorem getD_set_self {α : Type} (l : List α) (i : Nat) (a d : α)
    (hi : i < l.length) :
    (l.set i a).getD i d = a := by
  induction l generalizing i with
  | nil => simp at hi
  | cons hd tl ih =>
    cases i with
    | zero => rfl
    | succ n => simpa using ih n (by simpa using hi)

/-- C5: a cloned Workspace handle shares the underlying document and
awareness cell, so a mutation committed through a write transaction on
either handle is visible through a subsequently opened read transaction on
the other; the clone also receives its own plugin map slot rather than
sharing the original's. -/
theorem clone_identity (h : SharedHeap) (w : WorkspaceHandle)
    (hdoc : w.docRef < h.docs.length)
    (hpl : w.pluginsRef < h.pluginMaps.length)
    (f g : WorkspaceContent → WorkspaceContent) :
    readDoc (with_trx (cloneWorkspace h w).1 w f) (cloneWorkspace h w).2 =
      f (readDoc (cloneWorkspace h w).1 w) ∧
    readDoc (with_trx (cloneWorkspace h w).1 (cloneWorkspace h w).2 g) w =
      g (readDoc (cloneWorkspace h w).1 (cloneWorkspace h w).2) ∧
    (cloneWorkspace h w).2.docRef = w.docRef ∧
    (cloneWorkspace h w).2.pluginsRef ≠ w.pluginsRef := by
  refine ⟨?_, ?_, rfl, ?_⟩
  · simp only [readDoc, with_trx, cloneWorkspace]
    exact getD_set_self h.docs w.docRef _ WorkspaceContent.empty hdoc
  · simp only [readDoc, with_trx, cloneWorkspace]
    exact getD_set_self h.docs w.docRef _ WorkspaceContent.empty hdoc
  · exact (Nat.ne_of_lt hpl).symm

/-- A one-document, one-handle heap for the clone witness. -/
def demoHeap : SharedHeap :=
  { docs := [WorkspaceContent.empty], pluginMaps := [setupPluginMap] }

/-- The original handle into `demoHeap`. -/
def demoHandle : WorkspaceHandle :=
  { id := "space", docRef := 0, pluginsRef := 0 }

/-- A concrete mutation: create block "b". -/
def demoMutation : WorkspaceContent → WorkspaceContent :=
  fun c => createBlock c "b" "text" 1 0

/-- C5 witness: clone identity on the concrete one-document heap. -/
theorem clone_identity_witness :
    readDoc (with_trx (cloneWorkspace demoHeap demoHandle).1 demoHandle demoMutation)
        (cloneWorkspace demoHeap demoHandle).2 =
      demoMutation (readDoc (cloneWorkspace demoHeap demoHandle).1 demoHandle) ∧
    readDoc (with_trx (cloneWorkspace demoHeap demoHandle).1
        (cloneWorkspace demoHeap demoHandle).2 demoMutation) demoHandle =
      demoMutation (readDoc (cloneWorkspace demoHeap demoHandle).1
        (cloneWorkspace demoHeap demoHandle).2) ∧
    (cloneWorkspace demoHeap demoHandle).2.docRef = demoHandle.docRef ∧
    (cloneWorkspace demoHeap demoHandle).2.pluginsRef ≠ demoHandle.pluginsRef :=
  clone_identity demoHeap demoHandle (by decide) (by decide) demoMutation demoMutation

/-- A document handle as seen by `try_with_trx`: the content plus whether
another write transaction currently holds the document's write lock. -/
structure DocHandle where
  writeLocked : Bool
  content : WorkspaceContent
deriving DecidableEq

/-- Modelled from the spec: yrs `Doc::try_transact_mut` is the
non-blocking acquisition; it fails exactly when a write transaction is
already in progress (spec §4.2, `TransactionBusy`). -/
def try_transact_mut (d : DocHandle) : Except String WorkspaceContent :=
  if d.writeLocked then Except.error "transaction already in progress"
  else Except.ok d.content

/-- Translation of `Workspace::try_with_trx` (`workspace.rs` lines
127-138): on acquisition run `f` in the write transaction and return
`Some` of its result (the mutated content being committed); on failure log
and return `None`. -/
def try_with_trx {α : Type} (d : DocHandle)
    (f : WorkspaceContent → WorkspaceContent × α) : Option α × DocHandle :=
  match try_transact_mut d with
  | Except.ok c =>
    let r := f c
    (some r.2, { d with content := r.1 })
  | Except.error _ => (none, d)

/-- C7: whenever another write transaction on the same document is already
in progress, `try_with_trx` returns `None` without running `f` and without
modifying the document (its result does not depend on `f` at all);
otherwise it runs `f` inside a write transaction, commits the mutation,
and returns `Some` of `f`'s result. -/
theorem try_with_trx_spec {α : Type} (d : DocHandle)
    (f : WorkspaceContent → WorkspaceContent × α) :
    try_with_trx d f =
      if d.writeLocked then (none, d)
      else (some (f d.content).2, { d with content := (f d.content).1 }) := by
  unfold try_with_trx try_transact_mut
  by_cases hl : d.writeLocked <;> simp [hl]

/-- Translation of the wrapper installed by `Workspace::observe`
(`workspace.rs` lines 229-235): the raw callback runs inside
`catch_unwind`; a panic — modelled as `Except.error` — is converted into a
logged error line instead of propagating. -/
def wrapObserver (f : List Nat → Except String Unit) (evt : List Nat) :
    Option String :=
  match f evt with
  | Except.ok _ => none
  | Except.error e => some ("panic in observe callback: " ++ e)

/-- Translation of `Workspace::observe` (`workspace.rs` lines 222-243):
register the panic-wrapped callback alongside the already installed
ones. -/
def observe (subs : List (List Nat → Option String))
    (f : List Nat → Except String Unit) : List (List Nat → Option String) :=
  subs ++ [wrapObserver f]

/-- A committed transaction firing the v1 update observers: the update is
merged into the document and every installed (wrapped) observer runs, each
yielding its own optional log line. -/
def commitWithObservers (doc : Finset DocOp) (u : Finset DocOp)
    (evt : List Nat) (subs : List (List Nat → Option String)) :
    Finset DocOp × List (Option String) :=
  (apply_update doc u, subs.map (fun cb => cb evt))

/-- C9: a panic inside an observed update handler is caught and logged
rather than propagated: the commit that triggered the handler still
applies its update in full, every other handler's output is exactly what
it would have been without the new handler, and a panicking handler
contributes a log line instead of an exception. -/
theorem observe_catches_panics (doc u : Finset DocOp) (evt : List Nat)
    (subs : List (List Nat → Option String))
    (f : List Nat → Except String Unit) :
    (commitWithObservers doc u evt (observe subs f)).1 = apply_update doc u ∧
    (commitWithObservers doc u evt (observe subs f)).2 =
      (commitWithObservers doc u evt subs).2 ++ [wrapObserver f evt] ∧
    (∀ e, f evt = Except.error e →
      wrapObserver f evt = some ("panic in observe callback: " ++ e)) := by
  refine ⟨rfl, ?_, ?_⟩
  · simp [commitWithObservers, observe]
  · intro e he
    simp [wrapObserver, he]

/-- An observer whose body always panics. -/
def panickyCallback : List Nat → Except String Unit :=
  fun _ => Except.error "boom"

/-- C9 witness: committing with an always-panicking observer still applies
the update, and the panic becomes a log line. -/
theorem observe_catches_panics_witness :
    (commitWithObservers ∅ {DocOp.metaEntry "k" "v"} [0]
        (observe [] panickyCallback)).1 =
      apply_update ∅ {DocOp.metaEntry "k" "v"} ∧
    (commitWithObservers ∅ {DocOp.metaEntry "k" "v"} [0]
        (observe [] panickyCallback)).2 =
      (commitWithObservers ∅ {DocOp.metaEntry "k" "v"} [0] []).2 ++
        [wrapObserver panickyCallback [0]] ∧
    wrapObserver panickyCallback [0] =
      some ("panic in observe callback: " ++ "boom") :=
  ⟨(observe_catches_panics ∅ {DocOp.metaEntry "k" "v"} [0] [] panickyCallback).1,
    (observe_catches_panics ∅ {DocOp.metaEntry "k" "v"} [0] [] panickyCallback).2.1,
    (observe_catches_panics ∅ {DocOp.metaEntry "k" "v"} [0] [] panickyCallback).2.2
      "boom" rfl⟩

/-- One entry of the indexing plugin's `SearchResults` (the plugin lives
outside the provided sources). -/
structure SearchResult where
  blockId : String
  score : Nat
deriving DecidableEq

/-- Modelled from the spec: `serde_json::to_string` on `SearchResults`. -/
def jsonOfSearchResults (l : List SearchResult) : String :=
  "[" ++ String.intercalate ","
    (l.map (fun r => "\x7b\"block_id\":\"" ++ r.blockId ++ "\"\x7d")) ++ "]"

/-- Translation of `Workspace::search_result` (`workspace.rs` lines
110-115), with the underlying `Workspace::search` passed as a function:
serialize the results on success, return the empty string — discarding the
error — on any failure. -/
def search_result (search : String → Except String (List SearchResult))
    (query : String) : String :=
  match search query with
  | Except.ok list => jsonOfSearchResults list
  | Except.error _ => ""

/-- C10: `search_result` never propagates an error to the caller: it is a
total function into `String` that returns the JSON serialization of the
results when the underlying search succeeds and the empty string
(discarding the error) whenever the search fails for any reason. -/
theorem search_result_total
    (search : String → Except String (List SearchResult)) (q : String) :
    (∀ l, search q = Except.ok l →
      search_result search q = jsonOfSearchResults l) ∧
    (∀ e, search q = Except.error e → search_result search q = "") := by
  constructor
  · intro l hl
    simp [search_result, hl]
  · intro e he
    simp [search_result, he]

/-- A search that succeeds with one hit. -/
def demoSearchOk : String → Except String (List SearchResult) :=
  fun _ => Except.ok [⟨"b1", 3⟩]

/-- A search that fails. -/
def demoSearchErr : String → Except String (List SearchResult) :=
  fun _ => Except.error "index unavailable"

/-- C10 witness: both branches at concrete search outcomes. -/
theorem search_result_total_witness :
    search_result demoSearchOk "hello" = jsonOfSearchResults [⟨"b1", 3⟩] ∧
    search_result demoSearchErr "hello" = "" :=
  ⟨(search_result_total demoSearchOk "hello").1 _ rfl,
    (search_result_total demoSearchErr "hello").2 _ rfl⟩

end OctoBase
